import Mathlib

/-!
Verification of the `cargo-cov` coverage-report front end against its
specification.  The repository ships the CLI layer
(`src/cargo-cov/src/main.rs`); the pipeline modules it calls
(`sourcepath`, `report`, the decoder, the report cache, the renderer)
are declared there but their bodies are not in the source tree, so
those components are modelled from the specification text, as marked on
each definition.  Everything taken from `main.rs` is embedded directly.
-/

namespace CargoCov

/-! Section: Source-path classification (spec 4.3, `sourcepath` module) -/

/-- Provenance category of a source path (spec 4.3).  The `sourcepath`
module body is not in the tree; the category set is fixed by the spec:
Local, Macros, RustSrc, Crates, Unknown. -/
inductive SourceType where
  | Local
  | Macros
  | RustSrc
  | Crates
  | Unknown
deriving DecidableEq, Repr

/-- An allow-set of source types, one admission flag per category
(bitflags in the original). -/
structure SourceTypeSet where
  admitsLocal : Bool
  admitsMacros : Bool
  admitsRustSrc : Bool
  admitsCrates : Bool
  admitsUnknown : Bool
deriving DecidableEq, Repr

/-- The empty allow-set. -/
def SOURCE_TYPE_EMPTY : SourceTypeSet := ⟨false, false, false, false, false⟩

/-- The wildcard allow-set: every category admitted (spec 4.3, "All" is
a wildcard admitting every category). -/
def SOURCE_TYPE_ALL : SourceTypeSet := ⟨true, true, true, true, true⟩

/-- Modelled from the spec: `SOURCE_TYPE_DEFAULT` of the missing
`sourcepath` module.  Spec 4.3 gives the rationale that without the
filter, dependency and toolchain code drowns the signal the tool exists
to surface (coverage of the user's own code), so the default admits the
user's own code (Local) and its macro expansions (Macros) only. -/
def SOURCE_TYPE_DEFAULT : SourceTypeSet := ⟨true, true, false, false, false⟩

/-- Whether an allow-set admits a category. -/
def SourceTypeSet.admits (s : SourceTypeSet) : SourceType → Bool
  | .Local => s.admitsLocal
  | .Macros => s.admitsMacros
  | .RustSrc => s.admitsRustSrc
  | .Crates => s.admitsCrates
  | .Unknown => s.admitsUnknown

/-- Union of two allow-sets. -/
def SourceTypeSet.union (s t : SourceTypeSet) : SourceTypeSet :=
  ⟨s.admitsLocal || t.admitsLocal,
   s.admitsMacros || t.admitsMacros,
   s.admitsRustSrc || t.admitsRustSrc,
   s.admitsCrates || t.admitsCrates,
   s.admitsUnknown || t.admitsUnknown⟩

/-- Containment of allow-sets (every admitted category of `s` is
admitted by `t`). -/
def SourceTypeSet.subsetOf (s t : SourceTypeSet) : Bool :=
  (!s.admitsLocal || t.admitsLocal) &&
  (!s.admitsMacros || t.admitsMacros) &&
  (!s.admitsRustSrc || t.admitsRustSrc) &&
  (!s.admitsCrates || t.admitsCrates) &&
  (!s.admitsUnknown || t.admitsUnknown)

/-- The exact value list the CLI accepts for `--include`
(`main.rs` lines 180-187, `possible_values`). -/
def INCLUDE_POSSIBLE_VALUES : List String :=
  ["local", "macros", "rustsrc", "crates", "unknown", "all"]

/-- Modelled from the spec: parsing of one `--include` value to an
allow-set, in the missing `sourcepath` module.  Each of the five
category names yields its single flag, and "all" yields the wildcard
set; any other string is rejected. -/
def SourceType.from_str (s : String) : Option SourceTypeSet :=
  if s = "local" then some ⟨true, false, false, false, false⟩
  else if s = "macros" then some ⟨false, true, false, false, false⟩
  else if s = "rustsrc" then some ⟨false, false, true, false, false⟩
  else if s = "crates" then some ⟨false, false, false, true, false⟩
  else if s = "unknown" then some ⟨false, false, false, false, true⟩
  else if s = "all" then some SOURCE_TYPE_ALL
  else none

/-- One step of `from_multi_str`: union the next parsed value into the
accumulated allow-set, failing if either side failed. -/
def from_multi_step (acc : Option SourceTypeSet) (s : String) :
    Option SourceTypeSet :=
  match acc, SourceType.from_str s with
  | some a, some b => some (a.union b)
  | _, _ => none

/-- Modelled from the spec: `SourceType::from_multi_str` of the missing
`sourcepath` module, called at `main.rs` line 195.  Parses every
supplied value and unions the results; fails if any value is
unrecognized. -/
def SourceType.from_multi_str (ss : List String) : Option SourceTypeSet :=
  ss.foldl from_multi_step (some SOURCE_TYPE_EMPTY)

/-- The roots against which a recorded source path is classified
(spec 4.3): the project's own source root, the toolchain source root,
and the external-dependency cache root. -/
structure Roots where
  workspace : String
  rustsrcRoot : String
  cratesRoot : String
deriving DecidableEq, Repr

/-- Modelled from the spec: `identify_source_path` of the missing
`sourcepath` module (spec 4.3).  Assigns exactly one category: a
synthesized macro pseudo-file is identified by its path convention
(angle-bracket paths, not on-disk files); otherwise the first matching
root among the project's own source root, the toolchain source root and
the dependency cache root decides; anything else is Unknown. -/
def identify_source_path (roots : Roots) (path : String) : SourceType :=
  if path.startsWith "<" then .Macros
  else if path.startsWith roots.workspace then .Local
  else if path.startsWith roots.rustsrcRoot then .RustSrc
  else if path.startsWith roots.cratesRoot then .Crates
  else .Unknown

/-! Section: Decoder and aggregator (spec 4.1, 4.4, `cov` crate / `report` module) -/

/-- Error taxonomy (spec section 7). -/
inductive CovError where
  | FormatError
  | ChecksumMismatch
  | Truncated
  | TemplateNotFound
  | IOError
deriving DecidableEq, Repr

/-- Modelled from the spec: a decoded graph file (spec section 3).  For
aggregation only the stamp and the per-block source attribution matter:
each declared block carries the source path and line it is attributed
to.  Blocks are kept in declaration order because count files match
them positionally (spec 4.1). -/
structure GraphFile where
  stamp : Nat
  blocks : List (String × Nat)
deriving DecidableEq, Repr

/-- Modelled from the spec: a decoded count file (spec section 3): a
stamp and a positional stream of non-negative counters, one per
declared block of the paired graph file. -/
structure CountFile where
  stamp : Nat
  counts : List Nat
deriving DecidableEq, Repr

/-- One merged (GraphFile, CountFile) pair after decoding: each
declared block paired positionally with its execution count
(spec 4.1 and design note on positional correspondence). -/
structure DecodedPair where
  blocks : List (String × Nat × Nat)
deriving DecidableEq, Repr

/-- Modelled from the spec: decoding a count file against its graph
file (spec 4.1).  The count file's stamp must equal the graph file's,
otherwise the fatal `ChecksumMismatch` is raised; a counter stream
shorter than the declared block list is `Truncated`; otherwise counts
are matched to blocks strictly in declaration order. -/
def merge_pair (g : GraphFile) (cf : CountFile) : Except CovError DecodedPair :=
  if cf.stamp ≠ g.stamp then .error .ChecksumMismatch
  else if cf.counts.length < g.blocks.length then .error .Truncated
  else .ok ⟨(g.blocks.zip cf.counts).map (fun bc => (bc.1.1, bc.1.2, bc.2))⟩

/-- The aggregator's per-line model: an association list from
(source path, line) to accumulated execution count.  A key is present
exactly when some merged pair declared a block there; absent keys are
the "not instrumentable" lines (spec section 3, invariants). -/
def LineMap := List ((String × Nat) × Nat)

/-- Look up the merged count of a (source path, line) key; `none` means
not instrumentable. -/
def lookupCount : LineMap → (String × Nat) → Option Nat
  | [], _ => none
  | e :: rest, k => if e.1 = k then some e.2 else lookupCount rest k

/-- Add one block's count into the per-line model: an existing entry is
increased — never overwritten — and a fresh key is appended with its
count (spec 4.4, counts always sum). -/
def addCount : LineMap → (String × Nat) → Nat → LineMap
  | [], k, c => [(k, c)]
  | e :: rest, k, c =>
      if e.1 = k then (e.1, e.2 + c) :: rest else e :: addCount rest k c

/-- Accumulate every block of one decoded pair into the model. -/
def mergeIntoModel (m : LineMap) (p : DecodedPair) : LineMap :=
  p.blocks.foldl (fun acc b => addCount acc (b.1, b.2.1) b.2.2) m

/-- Modelled from the spec: the aggregator (spec 4.4).  Folds every
merged (GraphFile, CountFile) pair into one fresh per-line model; the
model is rebuilt fully on each invocation. -/
def aggregate (pairs : List DecodedPair) : LineMap :=
  pairs.foldl mergeIntoModel []

/-- The counts the blocks of one decoded pair contribute to one
(source path, line) key. -/
def lineContribs (p : DecodedPair) (k : String × Nat) : List Nat :=
  p.blocks.filterMap (fun b => if (b.1, b.2.1) = k then some b.2.2 else none)

/-- Whether a decoded pair declares at least one block on a key. -/
def declaresOn (p : DecodedPair) (k : String × Nat) : Bool :=
  p.blocks.any (fun b => (b.1, b.2.1) = k)

/-- Modelled from the spec: decoding every discovered
(GraphFile, CountFile) pair in turn (spec 4.1, section 5); the first
fatal decode error aborts the whole sequence. -/
def decode_pairs : List (GraphFile × CountFile) → Except CovError (List DecodedPair)
  | [] => .ok []
  | p :: ps =>
      match merge_pair p.1 p.2 with
      | .error e => .error e
      | .ok d =>
          match decode_pairs ps with
          | .error e => .error e
          | .ok ds => .ok (d :: ds)

/-- Modelled from the spec: the decode-then-aggregate pipeline over all
discovered (GraphFile, CountFile) pairs (spec 4.1, 4.4, section 5):
any fatal decode error aborts the whole call immediately, so no merged
model is produced at all on a mismatch. -/
def aggregate_all (prs : List (GraphFile × CountFile)) : Except CovError LineMap :=
  match decode_pairs prs with
  | .error e => .error e
  | .ok decoded => .ok (aggregate decoded)

/-! Section: Report cache (spec 4.5) -/

/-- Modelled from the spec: the cache fingerprint (spec 4.5), a content
fingerprint over the full input artifact byte set plus the chosen
template name and the inclusion filter.  The hash is idealized as the
fingerprinted content itself. -/
structure Fingerprint where
  inputs : List (GraphFile × CountFile)
  allowed : SourceTypeSet
  templateName : String
deriving DecidableEq, Repr

/-- The persistent fingerprint index: each recorded fingerprint with
the produced report's entry path and the produced report tree's bytes. -/
structure CacheState where
  entries : List (Fingerprint × (String × String))
deriving DecidableEq, Repr

/-- Result of one report-generation run, for cache accounting: the
entry path returned, the report bytes now on disk, and whether the run
was a fingerprint hit. -/
structure ReportRun where
  entryPath : String
  output : String
  cacheHit : Bool
deriving DecidableEq, Repr

/-- Modelled from the spec: the report cache gate (spec 4.5).  On a
fingerprint hit the previously produced report's entry path is
returned without re-rendering (the report tree on disk is untouched);
on a miss the renderer runs and the new fingerprint is recorded. -/
def run_cached (renderer : Fingerprint → String × String) (st : CacheState)
    (fp : Fingerprint) : ReportRun × CacheState :=
  match List.find? (fun e => e.1 = fp) st.entries with
  | some e => (⟨e.2.1, e.2.2, true⟩, st)
  | none =>
      let fresh := renderer fp
      (⟨fresh.1, fresh.2, false⟩, ⟨(fp, fresh) :: st.entries⟩)

/-! Section: Natural path ordering of the index page (spec 4.6, `natord`
crate used at `main.rs` line 20) -/

/-- Split the longest leading run of ASCII digits off a character
list. -/
def takeDigits : List Char → List Char × List Char
  | [] => ([], [])
  | c :: cs =>
      if c.isDigit then
        let rest := takeDigits cs
        (c :: rest.1, rest.2)
      else ([], c :: cs)

/-- Value of a digit run. -/
def digitsToNat (ds : List Char) : Nat :=
  ds.foldl (fun n c => n * 10 + (c.toNat - 48)) 0

/-- Modelled from the spec: the numeric-aware comparison used to order
the index page (spec 4.6), fueled for termination.  Runs of digits are
compared by numeric value, everything else character by character. -/
def natCompareAux : Nat → List Char → List Char → Ordering
  | 0, _, _ => .eq
  | _ + 1, [], [] => .eq
  | _ + 1, [], _ :: _ => .lt
  | _ + 1, _ :: _, [] => .gt
  | fuel + 1, a :: s, b :: t =>
      if a.isDigit && b.isDigit then
        let da := takeDigits (a :: s)
        let db := takeDigits (b :: t)
        match compare (digitsToNat da.1) (digitsToNat db.1) with
        | .eq => natCompareAux fuel da.2 db.2
        | o => o
      else
        match compare a b with
        | .eq => natCompareAux fuel s t
        | o => o

/-- Numeric-aware comparison of two paths. -/
def natCompare (s t : String) : Ordering :=
  natCompareAux (s.length + t.length + 1) s.data t.data

/-- Plain lexicographic comparison of two paths, for contrast with the
numeric-aware one. -/
def lexCompare (s t : String) : Ordering := compare s t

/-- Insert a path into a list sorted by a comparison. -/
def insertSorted (cmp : String → String → Ordering) (x : String) :
    List String → List String
  | [] => [x]
  | y :: ys =>
      match cmp x y with
      | .gt => y :: insertSorted cmp x ys
      | _ => x :: y :: ys

/-- Sort paths by a comparison (insertion sort). -/
def sortPaths (cmp : String → String → Ordering) (ps : List String) :
    List String :=
  ps.foldr (insertSorted cmp) []

/-- Modelled from the spec: the order in which the index page lists the
admitted SourceFiles (spec 4.6) — sorted by the numeric-aware
comparison. -/
def index_order (admitted : List String) : List String :=
  sortPaths natCompare admitted

/-! Section: The CLI layer (`main.rs`) -/

/-- The lines `print_error` writes (`main.rs` lines 84-104): the error
chain is walked in order, the first entry labelled "error: " and every
later entry labelled "caused by: ". -/
def print_error_lines (msgs : List String) : List String :=
  msgs.enum.map (fun ie => (if ie.1 = 0 then "error: " else "caused by: ") ++ ie.2)

/-- The template name `generate_reports` uses (`main.rs` line 197):
the supplied `--template` value, defaulting to "html". -/
def chosen_template (templateArg : Option String) : String :=
  templateArg.getD "html"

/-- The allow-set `generate_reports` computes (`main.rs` line 195):
`SOURCE_TYPE_DEFAULT` when `--include` is absent, otherwise
`from_multi_str` over the supplied values (`unwrap` is modelled as the
propagated `Option`; the CLI has already validated every value). -/
def allowed_source_types (includeArg : Option (List String)) : Option SourceTypeSet :=
  match includeArg with
  | none => some SOURCE_TYPE_DEFAULT
  | some vs => SourceType.from_multi_str vs

/-- Modelled from the spec: the SourceFiles the inclusion filter admits
out of those the merged model mentions (spec 4.3, 4.6). -/
def admitted_files (roots : Roots) (allowed : SourceTypeSet)
    (model : LineMap) : List String :=
  (model.map (fun e => e.1.1)).filter
    (fun p => allowed.admits (identify_source_path roots p))

/-- Modelled from the spec: the entry-path result of rendering
(spec 4.6) — the entry page path when at least one SourceFile was
admitted by the inclusion filter, `none` when zero were. -/
def render_entry (roots : Roots) (allowed : SourceTypeSet)
    (model : LineMap) : Option String :=
  if (admitted_files roots allowed model).isEmpty then none
  else some "report/index.html"

/-- Modelled from the spec: `report::generate` (spec 4.6 and
section 6), as called at `main.rs` line 198.  Classifies every source
path recorded across the decoded pairs, keeps those the allow-set
admits, and returns the entry page path — or `none` when zero
SourceFiles were admitted.  A fatal decode error aborts the call. -/
def report_generate (roots : Roots) (prs : List (GraphFile × CountFile))
    (_templateName : String) (allowed : SourceTypeSet) :
    Except CovError (Option String) :=
  match aggregate_all prs with
  | .error e => .error e
  | .ok model => .ok (render_entry roots allowed model)

/-- Outcome of the opener invoked for `--open` (`open::that`): the
exit status of the external program. -/
structure OpenStatus where
  success : Bool
deriving DecidableEq, Repr

/-- What the CLI layer did in one `generate_reports` call: the
warnings it printed and the path it asked the browser to open. -/
structure CliOutcome where
  warnings : List String
  openedPath : Option String
deriving DecidableEq, Repr

/-- `generate_reports` (`main.rs` lines 194-213), with the result of
`report::generate` and the opener's status as explicit inputs.  A fatal
error from `report::generate` propagates (the `?` operator); otherwise,
with `--open`: a returned path is opened and a failing opener status
only warns, while an absent path warns "nothing to open"; either way
the call returns Ok. -/
def generate_reports (genResult : Except CovError (Option String))
    (openFlag : Bool) (status : OpenStatus) : Except CovError CliOutcome :=
  match genResult with
  | .error e => .error e
  | .ok openPath =>
      if openFlag then
        match openPath with
        | some path =>
            if !status.success then
              .ok ⟨["failed to open report, result: failure"], some path⟩
            else .ok ⟨[], some path⟩
        | none => .ok ⟨["nothing to open"], none⟩
      else .ok ⟨[], none⟩

/-! Section: Shared lemmas about the aggregator -/

theorem lookupCount_addCount (m : LineMap) (k : String × Nat) (c : Nat)
    (k' : String × Nat) :
    lookupCount (addCount m k c) k' =
      if k' = k then some ((lookupCount m k').getD 0 + c)
      else lookupCount m k' := by
  induction m with
  | nil =>
      by_cases h : k' = k
      · subst h; simp [addCount, lookupCount]
      · simp [addCount, lookupCount, h, Ne.symm h]
  | cons e rest ih =>
      by_cases h1 : e.1 = k
      · by_cases h2 : k' = k
        · subst h2; simp [addCount, lookupCount, h1]
        · have h3 : ¬e.1 = k' := by
            rw [h1]; exact fun hh => h2 hh.symm
          have h4 : ¬k = k' := fun hh => h2 hh.symm
          simp [addCount, lookupCount, h1, h2, h3, h4]
      · by_cases h2 : e.1 = k'
        · have h3 : ¬k' = k := fun hh => h1 (h2.trans hh)
          simp [addCount, lookupCount, h1, h2, h3]
        · simp [addCount, lookupCount, h1, h2, ih]

theorem lookupCount_addCount_self (m : LineMap) (k : String × Nat) (c : Nat) :
    lookupCount (addCount m k c) k = some ((lookupCount m k).getD 0 + c) := by
  rw [lookupCount_addCount, if_pos rfl]

theorem lookupCount_addCount_other (m : LineMap) (k : String × Nat) (c : Nat)
    (k' : String × Nat) (h : ¬k' = k) :
    lookupCount (addCount m k c) k' = lookupCount m k' := by
  rw [lookupCount_addCount, if_neg h]

theorem lineContribs_eq_nil (p : DecodedPair) (k : String × Nat)
    (h : declaresOn p k = false) : lineContribs p k = [] := by
  cases p with
  | mk bs =>
      simp only [declaresOn, List.any_eq_false, decide_eq_true_eq] at h
      simp only [lineContribs, List.filterMap_eq_nil_iff]
      intro b hb
      exact if_neg (h b hb)

theorem lookup_mergeIntoModel (bs : List (String × Nat × Nat)) (m : LineMap)
    (k : String × Nat) :
    lookupCount (mergeIntoModel m ⟨bs⟩) k =
      if declaresOn ⟨bs⟩ k then
        some ((lookupCount m k).getD 0 + (lineContribs ⟨bs⟩ k).sum)
      else lookupCount m k := by
  induction bs generalizing m with
  | nil => simp [mergeIntoModel, declaresOn, lineContribs]
  | cons b bs ih =>
      have hstep : mergeIntoModel m ⟨b :: bs⟩
          = mergeIntoModel (addCount m (b.1, b.2.1) b.2.2) ⟨bs⟩ := rfl
      rw [hstep, ih]
      by_cases hbk : (b.1, b.2.1) = k
      · have hdecl : declaresOn ⟨b :: bs⟩ k = true := by
          simp [declaresOn, hbk]
        have hcontrib : lineContribs ⟨b :: bs⟩ k
            = b.2.2 :: lineContribs ⟨bs⟩ k := by
          simp [lineContribs, List.filterMap_cons, hbk]
        have hadd : lookupCount (addCount m (b.1, b.2.1) b.2.2) k
            = some ((lookupCount m k).getD 0 + b.2.2) := by
          rw [lookupCount_addCount, if_pos hbk.symm]
        by_cases hds : declaresOn ⟨bs⟩ k = true
        · rw [if_pos hds, hadd, if_pos hdecl, hcontrib]
          simp [Nat.add_assoc]
        · rw [if_neg hds, hadd, if_pos hdecl, hcontrib,
            lineContribs_eq_nil ⟨bs⟩ k (by simpa using hds)]
          simp
      · have hdecl : declaresOn ⟨b :: bs⟩ k = declaresOn ⟨bs⟩ k := by
          simp [declaresOn, hbk]
        have hcontrib : lineContribs ⟨b :: bs⟩ k = lineContribs ⟨bs⟩ k := by
          simp [lineContribs, List.filterMap_cons, hbk]
        have hadd : lookupCount (addCount m (b.1, b.2.1) b.2.2) k
            = lookupCount m k := by
          rw [lookupCount_addCount, if_neg (fun hh => hbk hh.symm)]
        rw [hadd, hdecl, hcontrib]

theorem pair_sums_eq_zero (pairs : List DecodedPair) (k : String × Nat)
    (h : pairs.any (fun p => declaresOn p k) = false) :
    (pairs.map (fun p => (lineContribs p k).sum)).sum = 0 := by
  rw [List.any_eq_false] at h
  apply List.sum_eq_zero
  intro x hx
  rw [List.mem_map] at hx
  obtain ⟨p, hp, rfl⟩ := hx
  have hd : declaresOn p k = false := by simpa using h p hp
  rw [lineContribs_eq_nil p k hd]
  rfl

theorem lookup_foldl_aggregate (pairs : List DecodedPair) (m : LineMap)
    (k : String × Nat) :
    lookupCount (pairs.foldl mergeIntoModel m) k =
      if pairs.any (fun p => declaresOn p k) then
        some ((lookupCount m k).getD 0
          + (pairs.map (fun p => (lineContribs p k).sum)).sum)
      else lookupCount m k := by
  induction pairs generalizing m with
  | nil => simp
  | cons p ps ih =>
      have hstep : (p :: ps).foldl mergeIntoModel m
          = ps.foldl mergeIntoModel (mergeIntoModel m p) := rfl
      rw [hstep, ih]
      obtain ⟨bs⟩ := p
      have hmerge := lookup_mergeIntoModel bs m k
      by_cases hdp : declaresOn ⟨bs⟩ k = true
      · rw [if_pos hdp] at hmerge
        have hone : ((⟨bs⟩ : DecodedPair) :: ps).any
            (fun p => declaresOn p k) = true := by
          simp [List.any_cons, hdp]
        by_cases hds : ps.any (fun p => declaresOn p k) = true
        · rw [if_pos hds, hmerge, if_pos hone]
          simp [Nat.add_assoc]
        · rw [if_neg hds, hmerge, if_pos hone]
          have hz := pair_sums_eq_zero ps k (by simpa using hds)
          simp [hz]
      · rw [if_neg hdp] at hmerge
        have hz : lineContribs ⟨bs⟩ k = [] :=
          lineContribs_eq_nil ⟨bs⟩ k (by simpa using hdp)
        rw [hmerge]
        by_cases hds : ps.any (fun p => declaresOn p k) = true
        · have hone : ((⟨bs⟩ : DecodedPair) :: ps).any
              (fun p => declaresOn p k) = true := by
            simp [List.any_cons, hds]
          rw [if_pos hds, if_pos hone]
          simp [hz]
        · have hnone : ((⟨bs⟩ : DecodedPair) :: ps).any
              (fun p => declaresOn p k) = false := by
            simp only [List.any_cons, Bool.or_eq_false_iff]
            exact ⟨by simpa using hdp, by simpa using hds⟩
          rw [if_neg hds, if_neg (by simp [hnone])]

theorem filter_map_sum_eq (pairs : List DecodedPair) (k : String × Nat) :
    ((pairs.filter (fun p => declaresOn p k)).map
        (fun p => (lineContribs p k).sum)).sum
      = (pairs.map (fun p => (lineContribs p k).sum)).sum := by
  induction pairs with
  | nil => rfl
  | cons p ps ih =>
      by_cases hd : declaresOn p k = true
      · simp [List.filter_cons, hd, ih]
      · have hz : lineContribs p k = [] :=
          lineContribs_eq_nil p k (by simpa using hd)
        simp [List.filter_cons, hd, ih, hz]

theorem filter_isEmpty_iff_any (pairs : List DecodedPair) (k : String × Nat) :
    (pairs.filter (fun p => declaresOn p k)).isEmpty
      = !(pairs.any (fun p => declaresOn p k)) := by
  induction pairs with
  | nil => rfl
  | cons p ps ih =>
      by_cases hd : declaresOn p k = true
      · simp [List.filter_cons, hd]
      · simp [List.filter_cons, hd, ih, List.isEmpty_iff]

/-! Section: Shared lemmas about decoding and parsing -/

theorem decode_pairs_not_ok (prs : List (GraphFile × CountFile))
    (g : GraphFile) (cf : CountFile) (hmem : (g, cf) ∈ prs) (e : CovError)
    (herr : merge_pair g cf = .error e) :
    ∀ ds, decode_pairs prs ≠ .ok ds := by
  induction prs with
  | nil => cases hmem
  | cons p ps ih =>
      intro ds hds
      rcases List.mem_cons.mp hmem with hh | ht
      · rw [← hh] at hds
        simp only [decode_pairs, herr] at hds
        exact Except.noConfusion hds
      · cases hmp : merge_pair p.1 p.2 with
        | error e2 =>
            simp only [decode_pairs, hmp] at hds
            exact Except.noConfusion hds
        | ok d =>
            cases hdp : decode_pairs ps with
            | error e2 =>
                simp only [decode_pairs, hmp, hdp] at hds
                exact Except.noConfusion hds
            | ok ds2 => exact ih ht ds2 hdp

theorem from_multi_step_none (s : String) : from_multi_step none s = none := by
  cases h : SourceType.from_str s <;> simp [from_multi_step, h]

theorem foldl_from_multi_none (ss : List String) :
    ss.foldl from_multi_step none = none := by
  induction ss with
  | nil => rfl
  | cons s ss ih => rw [List.foldl_cons, from_multi_step_none]; exact ih

theorem from_str_isSome_iff (s : String) :
    (SourceType.from_str s).isSome = true ↔ s ∈ INCLUDE_POSSIBLE_VALUES := by
  unfold SourceType.from_str
  split_ifs with h1 h2 h3 h4 h5 h6 <;> simp_all [INCLUDE_POSSIBLE_VALUES]

theorem from_multi_mem (ss : List String) :
    ∀ acc st, ss.foldl from_multi_step acc = some st →
      ∀ s ∈ ss, (SourceType.from_str s).isSome = true := by
  induction ss with
  | nil => intro acc st _ s hs; cases hs
  | cons s0 ss ih =>
      intro acc st h s hs
      rw [List.foldl_cons] at h
      rcases List.mem_cons.mp hs with rfl | hmem
      · cases hfs : SourceType.from_str s with
        | none =>
            have hstep : from_multi_step acc s = none := by
              cases acc <;> simp [from_multi_step, hfs]
            rw [hstep, foldl_from_multi_none] at h
            cases h
        | some b => simp [hfs]
      · exact ih _ st h s hmem

/-! Section: The claims -/

/-- C1: for every (source path, line) key and every list of merged
(GraphFile, CountFile) pairs, the aggregator's merged count is the sum
of the per-pair contributions of exactly those pairs that declare a
block on that line — counts sum, never overwrite — and when zero pairs
declare a block there the key is absent from the model (not
instrumentable), which is distinct from an instrumented line whose
merged count is 0. -/
theorem aggregator_merged_count_c1 (pairs : List DecodedPair)
    (k : String × Nat) :
    lookupCount (aggregate pairs) k =
      if (pairs.filter (fun p => declaresOn p k)).isEmpty then none
      else some (((pairs.filter (fun p => declaresOn p k)).map
        (fun p => (lineContribs p k).sum)).sum) := by
  rw [aggregate, lookup_foldl_aggregate]
  by_cases hany : pairs.any (fun p => declaresOn p k) = true
  · rw [if_pos hany]
    have hne : (pairs.filter (fun p => declaresOn p k)).isEmpty = false := by
      rw [filter_isEmpty_iff_any, hany]; rfl
    rw [if_neg (by simp [hne]), filter_map_sum_eq]
    simp [lookupCount]
  · have hany2 : pairs.any (fun p => declaresOn p k) = false := by
      simpa using hany
    rw [if_neg hany]
    have hemp : (pairs.filter (fun p => declaresOn p k)).isEmpty = true := by
      rw [filter_isEmpty_iff_any, hany2]; rfl
    rw [if_pos hemp]
    rfl

/-- C2: for every graph file and count file whose stamps differ,
decoding raises the fatal `ChecksumMismatch`, and no merged model is
ever produced from a pair list containing that pair — the mismatched
count file's counters are never incorporated. -/
theorem checksum_mismatch_c2 (g : GraphFile) (cf : CountFile)
    (h : g.stamp ≠ cf.stamp) :
    merge_pair g cf = .error .ChecksumMismatch ∧
    ∀ prs, (g, cf) ∈ prs → ∀ m, aggregate_all prs ≠ .ok m := by
  have hmp : merge_pair g cf = .error .ChecksumMismatch := by
    rw [merge_pair, if_pos (fun hh => h hh.symm)]
  refine ⟨hmp, ?_⟩
  intro prs hmem m hok
  cases hd : decode_pairs prs with
  | error e =>
      simp only [aggregate_all, hd] at hok
      exact Except.noConfusion hok
  | ok ds =>
      exact decode_pairs_not_ok prs g cf hmem CovError.ChecksumMismatch hmp ds hd

/-- Witness for C2 at a concrete mismatched pair (stamps 1 and 2). -/
theorem checksum_mismatch_c2_witness :
    merge_pair ⟨1, []⟩ ⟨2, []⟩ = .error .ChecksumMismatch ∧
    aggregate_all [(⟨1, []⟩, ⟨2, []⟩)] ≠ .ok [] :=
  ⟨(checksum_mismatch_c2 ⟨1, []⟩ ⟨2, []⟩ (by decide)).1,
   (checksum_mismatch_c2 ⟨1, []⟩ ⟨2, []⟩ (by decide)).2
     [(⟨1, []⟩, ⟨2, []⟩)] (by simp) []⟩

/-- C3: classification is total and exclusive — every source path is
assigned exactly one of the five categories; the "all" wildcard admits
every category; a string is accepted as an `--include` value exactly
when it is one of the six CLI possible values, so any allow-set the CLI
builds comes only from values in that set. -/
theorem classification_total_exclusive_c3 :
    (∀ roots p, ∃! c : SourceType, identify_source_path roots p = c) ∧
    (∀ c : SourceType, SOURCE_TYPE_ALL.admits c = true) ∧
    (∀ s : String,
      (SourceType.from_str s).isSome = true ↔ s ∈ INCLUDE_POSSIBLE_VALUES) ∧
    (∀ ss st, SourceType.from_multi_str ss = some st →
      ∀ s ∈ ss, s ∈ INCLUDE_POSSIBLE_VALUES) := by
  refine ⟨?_, ?_, ?_, ?_⟩
  · exact fun roots p => ⟨identify_source_path roots p, rfl, fun y hy => hy.symm⟩
  · intro c; cases c <;> rfl
  · exact from_str_isSome_iff
  · intro ss st h s hs
    exact (from_str_isSome_iff s).mp
      (from_multi_mem ss (some SOURCE_TYPE_EMPTY) st h s hs)

/-- Witness for C3 at concrete inputs: the allow-set built from
`--include local` certifies that "local" is a CLI possible value, and
"all" parses to an allow-set. -/
theorem classification_total_exclusive_c3_witness :
    "local" ∈ INCLUDE_POSSIBLE_VALUES ∧
    (SourceType.from_str "all").isSome = true :=
  ⟨classification_total_exclusive_c3.2.2.2 ["local"]
      ⟨true, false, false, false, false⟩ (by decide) "local" (by simp),
   (classification_total_exclusive_c3.2.2.1 "all").mpr (by simp [INCLUDE_POSSIBLE_VALUES])⟩

/-- C4: re-running report generation with a byte-identical input set,
the same inclusion filter and the same template name is a fingerprint
hit on the second run: the previously produced entry path is returned
without re-rendering, the report bytes are identical to the first
run's, and the cache index is unchanged. -/
theorem cache_idempotent_c4 (renderer : Fingerprint → String × String)
    (st0 : CacheState) (fp : Fingerprint) :
    (run_cached renderer (run_cached renderer st0 fp).2 fp).1.cacheHit = true ∧
    (run_cached renderer (run_cached renderer st0 fp).2 fp).1.entryPath
      = (run_cached renderer st0 fp).1.entryPath ∧
    (run_cached renderer (run_cached renderer st0 fp).2 fp).1.output
      = (run_cached renderer st0 fp).1.output ∧
    (run_cached renderer (run_cached renderer st0 fp).2 fp).2
      = (run_cached renderer st0 fp).2 := by
  cases hfind : List.find? (fun e => e.1 = fp) st0.entries with
  | some e => simp [run_cached, hfind]
  | none =>
      have h2 : List.find? (fun e => e.1 = fp)
          ((fp, renderer fp) :: st0.entries) = some (fp, renderer fp) := by
        simp [List.find?]
      simp [run_cached, hfind, h2]

/-- C5: the index page lists SourceFiles in numeric-aware order, not
plain lexicographic order: "a1.rs", "a2.rs", "a10.rs" list exactly in
that order, while a lexicographic sort would put "a10.rs" before
"a2.rs". -/
theorem natural_order_c5 :
    index_order ["a10.rs", "a1.rs", "a2.rs"] = ["a1.rs", "a2.rs", "a10.rs"] ∧
    natCompare "a2.rs" "a10.rs" = .lt ∧
    lexCompare "a2.rs" "a10.rs" = .gt ∧
    sortPaths lexCompare ["a10.rs", "a1.rs", "a2.rs"]
      = ["a1.rs", "a10.rs", "a2.rs"] := by
  refine ⟨?_, ?_, ?_, ?_⟩ <;> decide

/-- C6: a report-generation call that completes without a fatal error
returns the entry page path exactly when at least one SourceFile was
admitted and `none` when zero were; the CLI layer treats `none` under
`--open` as a warning ("nothing to open"), not an error. -/
theorem entry_path_or_none_c6 :
    (∀ roots prs tmpl allowed model, aggregate_all prs = .ok model →
      report_generate roots prs tmpl allowed
        = .ok (render_entry roots allowed model)) ∧
    (∀ roots allowed model,
      render_entry roots allowed model = none
        ↔ admitted_files roots allowed model = []) ∧
    (∀ st, generate_reports (.ok none) true st
      = .ok ⟨["nothing to open"], none⟩) := by
  refine ⟨?_, ?_, fun st => rfl⟩
  · intro roots prs tmpl allowed model h
    unfold report_generate
    rw [h]
  · intro roots allowed model
    unfold render_entry
    by_cases hc : (admitted_files roots allowed model).isEmpty = true
    · simp [hc, List.isEmpty_iff.mp hc]
    · have hc2 : (admitted_files roots allowed model).isEmpty = false := by
        simpa using hc
      simp [hc2, ← List.isEmpty_iff]

/-- Witness for C6 on the empty artifact set: zero admitted
SourceFiles, so the call completes with `.ok` of the no-entry result. -/
theorem entry_path_or_none_c6_witness :
    report_generate ⟨"/w", "/r", "/c"⟩ [] "html" SOURCE_TYPE_DEFAULT
      = .ok (render_entry ⟨"/w", "/r", "/c"⟩ SOURCE_TYPE_DEFAULT []) :=
  entry_path_or_none_c6.1 ⟨"/w", "/r", "/c"⟩ [] "html" SOURCE_TYPE_DEFAULT [] rfl

/-- C7: a fatal error aborts report generation (the CLI propagates it
unchanged) and is displayed as a causal chain: line 0 is the root
message labelled "error: " and every later line is the next cause
labelled "caused by: ", preserving chain order. -/
theorem error_chain_display_c7 :
    (∀ e openFlag st, generate_reports (.error e) openFlag st = .error e) ∧
    (∀ msgs, (print_error_lines msgs).length = msgs.length) ∧
    (∀ (msgs : List String) (i : Nat) (e : String), msgs[i]? = some e →
      (print_error_lines msgs)[i]?
        = some ((if i = 0 then "error: " else "caused by: ") ++ e)) := by
  refine ⟨fun e openFlag st => rfl, fun msgs => by simp [print_error_lines], ?_⟩
  intro msgs i e h
  simp [print_error_lines, List.getElem?_map, List.getElem?_enum, h]

/-- Witness for C7 on a two-element chain: the second line carries the
"caused by: " label and the second message. -/
theorem error_chain_display_c7_witness :
    (print_error_lines ["disk failure", "while decoding"])[1]?
      = some ("caused by: " ++ "while decoding") := by
  have h := error_chain_display_c7.2.2 ["disk failure", "while decoding"] 1
    "while decoding" rfl
  simpa using h

/-- C8: the report subcommand uses the template name "html" when no
`--template` argument is supplied, and exactly the supplied value when
one is. -/
theorem template_default_c8 :
    chosen_template none = "html" ∧ ∀ t, chosen_template (some t) = t :=
  ⟨rfl, fun _ => rfl⟩

/-- C9: with no `--include` argument the allow-set passed to report
generation is the fixed `SOURCE_TYPE_DEFAULT`, not the "all" wildcard;
with `--include` values it is exactly `from_multi_str` of those
values. -/
theorem include_default_c9 :
    allowed_source_types none = some SOURCE_TYPE_DEFAULT ∧
    SOURCE_TYPE_DEFAULT ≠ SOURCE_TYPE_ALL ∧
    (∀ vs, allowed_source_types (some vs) = SourceType.from_multi_str vs) :=
  ⟨rfl, by decide, fun vs => rfl⟩

/-- C10: a failing browser opener is never fatal: with `--open` and a
non-success opener status, `generate_reports` records the warning and
still returns Ok with the generated report path unchanged. -/
theorem open_failure_nonfatal_c10 (path : String) :
    generate_reports (.ok (some path)) true ⟨false⟩
      = .ok ⟨["failed to open report, result: failure"], some path⟩ :=
  rfl

end CargoCov
